import Mathlib

/-!
Shallow embedding of the span-extension store of `tracing-subscriber`
(files `src/tracing-subscriber/src/registry/anymap.rs` and
`src/tracing-subscriber/src/registry/extensions.rs`).

Modelling conventions:
* Rust `TypeId` values are modelled by the inductive `Ty`.  The constructors
  record exactly the type constructors that matter for the downcast checks in
  the source: `Ty.box t` is `Box<t>` and `Ty.extPool t` is
  `sharded_slab::Pool<Option<t>>` (the `ExtPool<T>` alias of `extensions.rs`).
* A value stored behind `dyn Any` is a `DynVal`: its erased concrete type
  (what `downcast` / `downcast_ref` compare against) together with its payload.
* Panics (`panic!`, `unwrap`, `expect`, `unreachable!`) are modelled as
  `Except.error` carrying the panic message; every operation also returns the
  state as left behind at the point of the panic.
* Locks are elided: the embedding is the sequential semantics of the
  operations, which is what the functional-correctness claims quantify over.
-/

namespace Tracing

/-- Runtime type identities (`std::any::TypeId`) for the type expressions the
source manipulates: opaque base types, `Box<T>`, and the per-extension pool
`ExtPool<T> = sharded_slab::Pool<Option<T>>`. -/
inductive Ty : Type
  | base : Nat → Ty
  | box : Ty → Ty
  | extPool : Ty → Ty
deriving DecidableEq, Repr

/-- Human-readable name of a type, standing in for `core::any::type_name`. -/
def typeName : Ty → String
  | Ty.base n => "base" ++ toString n
  | Ty.box t => "Box<" ++ typeName t ++ ">"
  | Ty.extPool t => "Pool<Option<" ++ typeName t ++ ">>"

/-- Modelled from the spec: the Per-Type Slot Pool (`sharded_slab::Pool`,
an external collaborator, not in `src/`): a growable pool of cells addressed
by a stable key.  Each cell of an `ExtPool<T> = Pool<Option<T>>` holds an
`Option<T>`; a vacant slot index yields no cell at all.  The model is
unbounded, so the spec's allocation-exhaustion signal never fires. -/
abbrev ExtPool : Type := List (Option Nat)

/-- Modelled from the spec: `Pool::create_with(initializer)` returns a fresh
slot key; the initializer `|place| *place = Some(val)` fills the cell. -/
def ExtPool.createWith (p : ExtPool) (v : Nat) : Nat × ExtPool :=
  (List.length p, p ++ [some v])

/-- Modelled from the spec: `Pool::get(key)` returns the cell's current
content, or nothing for a vacant slot index. -/
def ExtPool.get (p : ExtPool) (k : Nat) : Option (Option Nat) :=
  p[k]?

/-- Modelled from the spec: `Pool::clear(key)` drops the cell's content
(`Option<T>` is cleared to `None`); the index keeps its allocation. -/
def ExtPool.clear (p : ExtPool) (k : Nat) : ExtPool :=
  List.set p k none

/-- The payload of a type-erased value.  In this system a stored value is
either an extension value (abstracted as a `Nat`) or a per-type slot pool. -/
inductive Payload : Type
  | nat : Nat → Payload
  | pool : ExtPool → Payload
deriving DecidableEq, Repr

/-- A `Box<dyn Any + Send + Sync>`: the erased concrete type plus payload.
`downcast::<T>` succeeds exactly when `ty = T`. -/
structure DynVal : Type where
  ty : Ty
  val : Payload
deriving DecidableEq, Repr

/-- Modelled from the spec: `TypeMap<V>` (the `PerEntityKeyMap`), a hash map
from runtime type identity to `V`; the alias is imported by `extensions.rs`
from `anymap.rs` but its definition is not in `src/`. -/
def TypeMap (V : Type) : Type := Ty → Option V

/-- An empty `TypeMap`. -/
def TypeMap.empty {V : Type} : TypeMap V := fun _ => none

/-- `HashMap::get`. -/
def TypeMap.get {V : Type} (m : TypeMap V) (k : Ty) : Option V := m k

/-- `HashMap::insert`: returns the previous value and the updated map. -/
def TypeMap.insert {V : Type} (m : TypeMap V) (k : Ty) (v : V) :
    Option V × TypeMap V :=
  (m k, fun t => if t = k then some v else m t)

/-- `HashMap::remove`: returns the removed value and the updated map. -/
def TypeMap.remove {V : Type} (m : TypeMap V) (k : Ty) :
    Option V × TypeMap V :=
  (m k, fun t => if t = k then none else m t)

/-- `AnyMap`: `HashMap<TypeId, Box<dyn Any + Send + Sync>, _>`
(`anymap.rs` line 8). -/
def AnyMap : Type := TypeMap DynVal

/-- The empty `AnyMap` (`#[derive(Default)]`). -/
def AnyMap.empty : AnyMap := TypeMap.empty

/-- `AnyMap::insert::<T>(value: Box<T>)` (`anymap.rs` lines 13-17):
`self.0.insert(TypeId::of::<T>(), Box::new(value))`.  Because `value`
already is a `Box<T>`, `Box::new(value)` is a `Box<Box<T>>`, so the erased
concrete type stored under the key `TypeId::of::<T>()` is `Box<T>`
(`Ty.box T` here), not `T`.  The previous entry is returned through
`boxed.downcast::<T>().ok()`, which checks the erased type against `T`. -/
def AnyMap.insert (m : AnyMap) (T : Ty) (v : Payload) : Option Payload × AnyMap :=
  let put := TypeMap.insert m T { ty := Ty.box T, val := v }
  (Option.bind put.1 fun dv => if dv.ty = T then some dv.val else none, put.2)

/-- `AnyMap::get::<T>()` (`anymap.rs` lines 19-23): look up
`TypeId::of::<T>()`, then `downcast_ref::<T>()`. -/
def AnyMap.get (m : AnyMap) (T : Ty) : Option Payload :=
  Option.bind (TypeMap.get m T) fun dv => if dv.ty = T then some dv.val else none

/-- `store.get::<ExtPool<T>>()` as used by `extensions.rs`: an `AnyMap.get`
at the key `TypeId::of::<ExtPool<T>>`; a successful downcast yields the pool
payload (Rust's type system guarantees the payload under a matching tag is a
pool, which the final `match` transcribes). -/
def AnyMap.getPool (m : AnyMap) (T : Ty) : Option ExtPool :=
  Option.bind (AnyMap.get m (Ty.extPool T)) fun p =>
    match p with
    | Payload.pool cells => some cells
    | Payload.nat _ => none

/-- In-place mutation of `T`'s pool through the shared reference returned by
`store.get::<ExtPool<T>>()` (what `create_with` / `clear` do in Rust): the
entry at key `ExtPool<T>` keeps its erased type, its pool payload changes. -/
def AnyMap.setPoolPayload (m : AnyMap) (T : Ty) (p : ExtPool) : AnyMap :=
  fun t =>
    if t = Ty.extPool T then
      Option.map (fun dv => { ty := dv.ty, val := Payload.pool p : DynVal }) (m t)
    else m t

/-- The state an `Extensions`/`ExtensionsMut` view works on: the global
`store : RwLock<AnyMap>` of per-type pools and this entity's
`keys : TypeMap<usize>` from type identity to slot key. -/
structure ExtState : Type where
  store : AnyMap
  keys : TypeMap Nat

/-- A fresh entity against a fresh registry: both maps empty. -/
def initState : ExtState := { store := AnyMap.empty, keys := TypeMap.empty }

/-- `Extensions::get::<T>()` (`extensions.rs` lines 27-32): resolve the slot
key in the entity's map, fetch `T`'s pool from the store, fetch the slot,
return its content if occupied.  Every miss is an early `return None`. -/
def Extensions.get (s : ExtState) (T : Ty) : Option Nat :=
  Option.bind (TypeMap.get s.keys T) fun key =>
  Option.bind (AnyMap.getPool s.store T) fun pool =>
  Option.bind (ExtPool.get pool key) fun ext => ext

/-- Panic message of `ExtensionsMut::insert` when `T` is already present
(`extensions.rs` lines 75-78). -/
def insertPanicMsg (T : Ty) : String :=
  "Extensions already contain a value for type " ++ typeName T

/-- Panic message of the `store.get().unwrap()` on `extensions.rs` line 92. -/
def unwrapPanicMsg : String :=
  "called Option::unwrap() on a None value"

/-- Panic message of the `expect` in `ExtensionsMut::remove`
(`extensions.rs` line 134). -/
def corruptedPanicMsg : String := "Extensions corrupted"

/-- `ExtensionsMut::insert::<T>(val)` (`extensions.rs` lines 73-101):
panic if a key for `T` exists; otherwise fetch `T`'s pool under a read lock,
on a miss write-lock, insert a fresh pool and re-fetch under a read lock
(`store.get().unwrap()`); allocate a slot with `create_with`, and record
`(TypeId::of::<T>, key)` in the entity's key map. -/
def ExtensionsMut.insert (s : ExtState) (T : Ty) (v : Nat) :
    Except String Unit × ExtState :=
  if Option.isSome (TypeMap.get s.keys T) then
    (Except.error (insertPanicMsg T), s)
  else
    match AnyMap.getPool s.store T with
    | some pool =>
        let alloc := ExtPool.createWith pool v
        let store2 := AnyMap.setPoolPayload s.store T alloc.2
        let keys2 := (TypeMap.insert s.keys T alloc.1).2
        (Except.ok (), { store := store2, keys := keys2 })
    | none =>
        let store2 := (AnyMap.insert s.store (Ty.extPool T) (Payload.pool [])).2
        match AnyMap.getPool store2 T with
        | none => (Except.error unwrapPanicMsg, { s with store := store2 })
        | some pool =>
            let alloc := ExtPool.createWith pool v
            let store3 := AnyMap.setPoolPayload store2 T alloc.2
            let keys2 := (TypeMap.insert s.keys T alloc.1).2
            (Except.ok (), { store := store3, keys := keys2 })

/-- `ExtensionsMut::get_mut::<T>()` (`extensions.rs` lines 115-122): same
resolution chain as `Extensions::get`, returning the mutable content. -/
def ExtensionsMut.getMut (s : ExtState) (T : Ty) : Option Nat :=
  Option.bind (TypeMap.get s.keys T) fun key =>
  Option.bind (AnyMap.getPool s.store T) fun pool =>
  Option.bind (ExtPool.get pool key) fun ext => ext

/-- `ExtensionsMut::remove::<T>()` (`extensions.rs` lines 127-137):
`self.keys.remove(&TypeId::of::<T>()).map(|key| store.get::<ExtPool<T>>()
.expect("Extensions corrupted").clear(key))`.  The key is removed before the
pool lookup, so a panicking `expect` leaves the key already deleted. -/
def ExtensionsMut.remove (s : ExtState) (T : Ty) :
    Except String (Option Unit) × ExtState :=
  let rem := TypeMap.remove s.keys T
  match rem.1 with
  | none => (Except.ok none, { s with keys := rem.2 })
  | some key =>
      match AnyMap.getPool s.store T with
      | none => (Except.error corruptedPanicMsg, { s with keys := rem.2 })
      | some pool =>
          let store2 := AnyMap.setPoolPayload s.store T (ExtPool.clear pool key)
          (Except.ok (some ()), { store := store2, keys := rem.2 })

/-- `ExtensionsMut::replace::<T>(val)` (`extensions.rs` lines 106-112):
`let previous = self.remove::<T>(); self.insert(val); previous`. -/
def ExtensionsMut.replace (s : ExtState) (T : Ty) (v : Nat) :
    Except String (Option Unit) × ExtState :=
  match ExtensionsMut.remove s T with
  | (Except.error e, s2) => (Except.error e, s2)
  | (Except.ok previous, s2) =>
      match ExtensionsMut.insert s2 T v with
      | (Except.error e, s3) => (Except.error e, s3)
      | (Except.ok _, s3) => (Except.ok previous, s3)

/-- The spec's description of `replace`: `remove::<T>()` followed by
`insert::<T>(value)`, reporting whether a previous value existed; a panic in
either step propagates with the state it left behind. -/
def removeThenInsert (s : ExtState) (T : Ty) (v : Nat) :
    Except String (Option Unit) × ExtState :=
  match ExtensionsMut.remove s T with
  | (Except.error e, s2) => (Except.error e, s2)
  | (Except.ok previous, s2) =>
      match ExtensionsMut.insert s2 T v with
      | (Except.error e, s3) => (Except.error e, s3)
      | (Except.ok _, s3) => (Except.ok previous, s3)

/-- `TypeIdHasher` (`anymap.rs` lines 53-54): holds the `u64` of the
`TypeId` and returns it unchanged. -/
structure TypeIdHasher : Type where
  val : Nat
deriving DecidableEq, Repr

/-- `TypeIdHasher::default()`: the zero state. -/
def TypeIdHasher.default : TypeIdHasher := { val := 0 }

/-- `Hasher::write` for `TypeIdHasher` (`anymap.rs` lines 57-59):
`unreachable!("TypeId calls write_u64")`, an unconditional panic. -/
def TypeIdHasher.write (_h : TypeIdHasher) (_bs : List Nat) :
    Except String TypeIdHasher :=
  Except.error "internal error: entered unreachable code: TypeId calls write_u64"

/-- `Hasher::write_u64` for `TypeIdHasher` (`anymap.rs` lines 62-64):
`self.0 = id`. -/
def TypeIdHasher.write_u64 (_h : TypeIdHasher) (id : Nat) : TypeIdHasher :=
  { val := id }

/-- `Hasher::finish` for `TypeIdHasher` (`anymap.rs` lines 67-69):
returns the stored value. -/
def TypeIdHasher.finish (h : TypeIdHasher) : Nat := h.val

/-- One call a `Hash` implementation makes against a `Hasher`: either the
generic byte-slice `write` or `write_u64`. -/
inductive HashCall : Type
  | bytes : List Nat → HashCall
  | u64 : Nat → HashCall

/-- Run a sequence of hasher calls against a `TypeIdHasher`; the byte-slice
path panics (`unreachable!`), the `u64` path updates the state. -/
def TypeIdHasher.runCalls (h : TypeIdHasher) :
    List HashCall → Except String TypeIdHasher
  | [] => Except.ok h
  | HashCall.bytes bs :: rest =>
      Except.bind (TypeIdHasher.write h bs) fun h2 => TypeIdHasher.runCalls h2 rest
  | HashCall.u64 id :: rest =>
      TypeIdHasher.runCalls (TypeIdHasher.write_u64 h id) rest

/-- Modelled from the spec: the hasher calls emitted by hashing a `TypeId`
(std's `Hash` impl for `TypeId`, not in `src/`): a single `write_u64` with
the identity's own integer value, per the comment on `TypeIdHasher`
(`anymap.rs` lines 50-52 and the `unreachable!` message). -/
def typeIdHashCalls (id : Nat) : List HashCall := [HashCall.u64 id]

/-- The hash `AnyMap` computes for a key: hashing the key `TypeId` (whose
integer value is `id`) from a fresh `TypeIdHasher`, then `finish`.  Every
`AnyMap` key operation (`insert`, `get`, `get_mut`, `remove`) performs
exactly this computation on its key. -/
def AnyMap.hashKey (id : Nat) : Except String Nat :=
  Except.map TypeIdHasher.finish
    (TypeIdHasher.runCalls TypeIdHasher.default (typeIdHashCalls id))

/-- One mutating call on an entity's `ExtensionsMut` view. -/
inductive Op : Type
  | ins : Ty → Nat → Op
  | gmut : Ty → Op
  | repl : Ty → Nat → Op
  | rem : Ty → Op

/-- The state after one operation (`get_mut` does not change the state;
operations that panic leave the state they had reached at the panic). -/
def applyOp (s : ExtState) : Op → ExtState
  | Op.ins T v => (ExtensionsMut.insert s T v).2
  | Op.gmut _ => s
  | Op.repl T v => (ExtensionsMut.replace s T v).2
  | Op.rem T => (ExtensionsMut.remove s T).2

/-- Run a sequence of operations from a state. -/
def runOps : ExtState → List Op → ExtState
  | s, [] => s
  | s, op :: rest => runOps (applyOp s op) rest

/-- A state reachable from a fresh entity/registry by some sequence of
`insert`, `get_mut`, `replace` and `remove` calls. -/
def Reachable (s : ExtState) : Prop := ∃ ops, s = runOps initState ops

/-- The claimed invariant: the entity's key map has a key for `T` iff a live
value of `T` is attached, i.e. `T`'s shared pool exists and the keyed slot
is occupied. -/
def KeyLiveInv (s : ExtState) : Prop :=
  ∀ T, (∃ k, TypeMap.get s.keys T = some k) ↔
    (∃ k, TypeMap.get s.keys T = some k ∧
      ∃ p, AnyMap.getPool s.store T = some p ∧
        ∃ v, ExtPool.get p k = some (some v))

/-- Structural invariant that actually holds of every reachable state: the
key map is empty (no `insert` ever completes), and every store entry was
written by the double-boxing `AnyMap.insert`, so its erased type is the
`Box` of its key. -/
def BoxTagged (s : ExtState) : Prop :=
  (∀ T, TypeMap.get s.keys T = none) ∧
  (∀ t dv, s.store t = some dv → dv.ty = Ty.box t)

/-- Well-formedness a correct store would maintain (the spec's invariant):
whenever the key map has a key for `T`, `T`'s pool exists and the keyed
slot holds a live value. -/
def WellFormed (s : ExtState) : Prop :=
  ∀ T k, TypeMap.get s.keys T = some k →
    ∃ p, AnyMap.getPool s.store T = some p ∧
      ∃ v, ExtPool.get p k = some (some v)

/-- A concrete key map attaching slot 0 to the type `Ty.base 0`. -/
def keysT0 : TypeMap Nat := fun t => if t = Ty.base 0 then some 0 else none

/-- A state whose key map claims `Ty.base 0` but whose store is empty
(what a panicking insert could never produce, used to exercise the
usage-error path of `insert`). -/
def stateT0 : ExtState := { store := AnyMap.empty, keys := keysT0 }

/-- A store holding a properly tagged pool for `Ty.base 0` whose slot 0
contains the value 7 (the store a correct insert would have built). -/
def wfStore : AnyMap := fun t =>
  if t = Ty.extPool (Ty.base 0) then
    some { ty := Ty.extPool (Ty.base 0), val := Payload.pool [some 7] }
  else none

/-- A well-formed state with a live value of `Ty.base 0` attached. -/
def wfState : ExtState := { store := wfStore, keys := keysT0 }

/-- Entity A's first-time insert of `Ty.base 0` on a fresh registry. -/
def entityAInsert : Except String Unit × ExtState :=
  ExtensionsMut.insert initState (Ty.base 0) 100

/-- Entity B's first-time insert of the same type, sharing the global store
entity A's insert left behind, with B's own empty key map. -/
def entityBInsert : Except String Unit × ExtState :=
  ExtensionsMut.insert { store := entityAInsert.2.store, keys := TypeMap.empty }
    (Ty.base 0) 200

/-! ### Helper lemmas -/

/-- No type equals its own `Box`: the downcast `Box<T> → T` always fails. -/
theorem box_ne (t : Ty) : Ty.box t ≠ t := by
  induction t with
  | base n => exact fun h => Ty.noConfusion h
  | box t ih => intro h; injection h with h2; exact ih h2
  | extPool t ih => exact fun h => Ty.noConfusion h

/-- In a store all of whose entries are double-boxed (erased type `Box` of
the key), the pool lookup `store.get::<ExtPool<T>>()` never succeeds. -/
theorem getPool_none_of_boxStore (m : AnyMap) (T : Ty)
    (h : ∀ t dv, m t = some dv → dv.ty = Ty.box t) :
    AnyMap.getPool m T = none := by
  cases hm : m (Ty.extPool T) with
  | none => simp [AnyMap.getPool, AnyMap.get, TypeMap.get, hm]
  | some dv =>
      have hne : dv.ty ≠ Ty.extPool T := by
        rw [h _ _ hm]; exact box_ne _
      simp [AnyMap.getPool, AnyMap.get, TypeMap.get, hm, hne]

/-- The double-boxing `AnyMap.insert` preserves the property that every
store entry's erased type is the `Box` of its key. -/
theorem storeBox_insert (m : AnyMap) (T : Ty)
    (hm : ∀ t dv, m t = some dv → dv.ty = Ty.box t) :
    ∀ t dv, (AnyMap.insert m (Ty.extPool T) (Payload.pool [])).2 t = some dv →
      dv.ty = Ty.box t := by
  intro t dv h
  have h2 : (if t = Ty.extPool T then
      some (DynVal.mk (Ty.box (Ty.extPool T)) (Payload.pool [])) else m t) = some dv := h
  by_cases ht : t = Ty.extPool T
  · rw [if_pos ht] at h2
    injection h2 with h3
    rw [← h3, ht]
  · rw [if_neg ht] at h2
    exact hm t dv h2

/-- On any box-tagged state, `ExtensionsMut.insert` reaches the
`store.get().unwrap()` on a `None` and panics, leaving the junk pool entry
in the store and the key map untouched. -/
theorem insert_panics_of_boxTagged (s : ExtState) (T : Ty) (v : Nat)
    (hs : BoxTagged s) :
    ExtensionsMut.insert s T v =
      (Except.error unwrapPanicMsg,
       { s with store := (AnyMap.insert s.store (Ty.extPool T) (Payload.pool [])).2 }) := by
  obtain ⟨hkeys, hstore⟩ := hs
  have hgp : AnyMap.getPool s.store T = none :=
    getPool_none_of_boxStore s.store T hstore
  have hgp2 :
      AnyMap.getPool (AnyMap.insert s.store (Ty.extPool T) (Payload.pool [])).2 T = none :=
    getPool_none_of_boxStore _ T (storeBox_insert s.store T hstore)
  unfold ExtensionsMut.insert
  rw [hkeys T]
  simp only [Option.isSome_none, Bool.false_eq_true, if_false, hgp, hgp2]

/-- On any box-tagged state, `ExtensionsMut.remove` finds no key, touches no
pool, and reports that nothing was attached. -/
theorem remove_noop_of_boxTagged (s : ExtState) (T : Ty) (hs : BoxTagged s) :
    ExtensionsMut.remove s T =
      (Except.ok none, { s with keys := (TypeMap.remove s.keys T).2 }) := by
  have hk : s.keys T = none := hs.1 T
  unfold ExtensionsMut.remove TypeMap.remove
  rw [hk]

/-- `BoxTagged` is preserved by `insert` (which panics but leaves its junk
store entry behind). -/
theorem boxTagged_insert (s : ExtState) (T : Ty) (v : Nat) (hs : BoxTagged s) :
    BoxTagged (ExtensionsMut.insert s T v).2 := by
  rw [insert_panics_of_boxTagged s T v hs]
  exact ⟨hs.1, storeBox_insert s.store T hs.2⟩

/-- `BoxTagged` is preserved by `remove`. -/
theorem boxTagged_remove (s : ExtState) (T : Ty) (hs : BoxTagged s) :
    BoxTagged (ExtensionsMut.remove s T).2 := by
  rw [remove_noop_of_boxTagged s T hs]
  refine ⟨?_, hs.2⟩
  intro T2
  show (if T2 = T then none else s.keys T2) = none
  by_cases h : T2 = T
  · rw [if_pos h]
  · rw [if_neg h]; exact hs.1 T2

/-- On any box-tagged state, `replace` removes nothing and then panics in
the inner insert, leaving the junk store entry behind. -/
theorem replace_panics_of_boxTagged (s : ExtState) (T : Ty) (v : Nat)
    (hs : BoxTagged s) :
    ExtensionsMut.replace s T v =
      (Except.error unwrapPanicMsg,
       { store :=
          (AnyMap.insert s.store (Ty.extPool T) (Payload.pool [])).2,
         keys := (TypeMap.remove s.keys T).2 }) := by
  have hs2 : BoxTagged { s with keys := (TypeMap.remove s.keys T).2 } := by
    have h := boxTagged_remove s T hs
    rwa [remove_noop_of_boxTagged s T hs] at h
  unfold ExtensionsMut.replace
  simp only [remove_noop_of_boxTagged s T hs,
    insert_panics_of_boxTagged _ T v hs2]

/-- `BoxTagged` is preserved by `replace` (remove finds nothing, then the
inner insert panics). -/
theorem boxTagged_replace (s : ExtState) (T : Ty) (v : Nat) (hs : BoxTagged s) :
    BoxTagged (ExtensionsMut.replace s T v).2 := by
  have hs2 : BoxTagged { s with keys := (TypeMap.remove s.keys T).2 } := by
    have h := boxTagged_remove s T hs
    rwa [remove_noop_of_boxTagged s T hs] at h
  rw [replace_panics_of_boxTagged s T v hs]
  exact ⟨hs2.1, storeBox_insert s.store T hs2.2⟩

/-- `BoxTagged` is preserved by every operation. -/
theorem boxTagged_applyOp (s : ExtState) (op : Op) (hs : BoxTagged s) :
    BoxTagged (applyOp s op) := by
  cases op with
  | ins T v => exact boxTagged_insert s T v hs
  | gmut T => exact hs
  | repl T v => exact boxTagged_replace s T v hs
  | rem T => exact boxTagged_remove s T hs

/-- `BoxTagged` is preserved by any operation sequence. -/
theorem boxTagged_runOps (ops : List Op) (s : ExtState) (hs : BoxTagged s) :
    BoxTagged (runOps s ops) := by
  induction ops generalizing s with
  | nil => exact hs
  | cons op rest ih => exact ih _ (boxTagged_applyOp s op hs)

/-- The fresh state is box-tagged (both maps empty). -/
theorem boxTagged_init : BoxTagged initState :=
  ⟨fun _ => rfl, fun _ _ h => Option.noConfusion h⟩

/-- A box-tagged state satisfies the key/live-value biconditional: it has no
keys and no retrievable pools. -/
theorem keyLiveInv_of_boxTagged (s : ExtState) (hs : BoxTagged s) :
    KeyLiveInv s := by
  intro T
  constructor
  · rintro ⟨k, hk⟩
    rw [hs.1 T] at hk
    exact Option.noConfusion hk
  · rintro ⟨k, hk, _⟩
    exact ⟨k, hk⟩

/-- A missing store entry means the pool lookup fails. -/
theorem getPool_eq_none_of_miss (m : AnyMap) (T : Ty)
    (hm : m (Ty.extPool T) = none) :
    AnyMap.getPool m T = none := by
  simp [AnyMap.getPool, AnyMap.get, TypeMap.get, hm]

/-- A store entry whose erased type is not `ExtPool<T>` fails the downcast,
so the pool lookup fails. -/
theorem getPool_eq_none_of_badTag (m : AnyMap) (T : Ty) (dv : DynVal)
    (hm : m (Ty.extPool T) = some dv) (hty : dv.ty ≠ Ty.extPool T) :
    AnyMap.getPool m T = none := by
  simp [AnyMap.getPool, AnyMap.get, TypeMap.get, hm, hty]

/-- Overwriting `T`'s pool payload in place (as `create_with`/`clear` do
through the shared reference) keeps the pool retrievable and yields the new
payload. -/
theorem getPool_setPoolPayload (m : AnyMap) (T : Ty) (p0 p : ExtPool)
    (h : AnyMap.getPool m T = some p0) :
    AnyMap.getPool (AnyMap.setPoolPayload m T p) T = some p := by
  cases hm : m (Ty.extPool T) with
  | none =>
      rw [getPool_eq_none_of_miss m T hm] at h
      exact Option.noConfusion h
  | some dv =>
      by_cases hty : dv.ty = Ty.extPool T
      · simp [AnyMap.getPool, AnyMap.get, TypeMap.get, AnyMap.setPoolPayload,
          hm, hty]
      · rw [getPool_eq_none_of_badTag m T dv hm hty] at h
        exact Option.noConfusion h

/-- A cleared slot no longer holds a live value. -/
theorem extPool_get_clear_ne (p : ExtPool) (k : Nat) (v : Nat) :
    ExtPool.get (ExtPool.clear p k) k ≠ some (some v) := by
  unfold ExtPool.get ExtPool.clear
  rw [List.getElem?_set_self']
  cases p[k]? <;> simp

/-! ### Claim theorems -/

/-- C1: the claim says that after a successful `ExtensionsMut::insert::<T>(v)`
a `Extensions::get::<T>()` on the same entity returns `v`.  The code refutes
it: on a fresh entity the very first insert panics (`Option::unwrap` on
`None` at the post-creation pool re-fetch, because `AnyMap::insert` stores
`Box::new(value)` of an already boxed value, so the stored erased type is
`Box<ExtPool<T>>` and the `downcast_ref::<ExtPool<T>>` fails), and a
subsequent get returns nothing. -/
theorem insert_then_get_broken :
    (ExtensionsMut.insert initState (Ty.base 0) 5).1 =
      Except.error unwrapPanicMsg ∧
    Extensions.get (ExtensionsMut.insert initState (Ty.base 0) 5).2
      (Ty.base 0) = none :=
  ⟨rfl, rfl⟩

/-- C2: the claim says `AnyMap::insert::<T>(value)` stores the value so that
`AnyMap::get::<T>()` finds it, and returns the previous value of `T` when
present.  The code refutes both parts: the entry is stored double-boxed
(erased type `Box<T>`), so `get::<T>` finds nothing, and a second insert
returns `none` although a previous entry was present. -/
theorem anymap_insert_get_broken :
    (AnyMap.insert AnyMap.empty (Ty.base 0) (Payload.nat 5)).1 = none ∧
    AnyMap.get (AnyMap.insert AnyMap.empty (Ty.base 0) (Payload.nat 5)).2
      (Ty.base 0) = none ∧
    (AnyMap.insert
        (AnyMap.insert AnyMap.empty (Ty.base 0) (Payload.nat 5)).2
        (Ty.base 0) (Payload.nat 6)).1 = none ∧
    (AnyMap.insert AnyMap.empty (Ty.base 0) (Payload.nat 5)).2 (Ty.base 0) ≠
      none :=
  ⟨rfl, rfl, rfl, fun h => Option.noConfusion h⟩

/-- C3: inserting a type `T` already present for the entity raises the usage
error naming `T` (the panic carries `type_name::<T>()`), before any
mutation: the state, including the previously attached value and the rest of
the store, is returned unchanged. -/
theorem insert_present_usage_error (s : ExtState) (T : Ty) (v k : Nat)
    (h : TypeMap.get s.keys T = some k) :
    ExtensionsMut.insert s T v = (Except.error (insertPanicMsg T), s) := by
  unfold ExtensionsMut.insert
  rw [h]
  rfl

/-- Witness for C3 at a concrete state attaching slot 0 to `Ty.base 0`. -/
theorem insert_present_usage_error_witness :
    TypeMap.get stateT0.keys (Ty.base 0) = some 0 ∧
    ExtensionsMut.insert stateT0 (Ty.base 0) 5 =
      (Except.error (insertPanicMsg (Ty.base 0)), stateT0) :=
  ⟨rfl, insert_present_usage_error stateT0 (Ty.base 0) 5 0 rfl⟩

/-- C4: in every state reachable by any sequence of `insert`, `get_mut`,
`replace` and `remove` from a fresh entity, the entity's key map contains a
key for `T` iff a live value of `T` is attached (T's shared pool is
retrievable and the keyed slot is occupied).  It holds degenerately: no
insert ever completes, so reachable key maps are empty and no pool is ever
retrievable. -/
theorem reachable_key_live_invariant (s : ExtState) (h : Reachable s) :
    KeyLiveInv s := by
  obtain ⟨ops, rfl⟩ := h
  exact keyLiveInv_of_boxTagged _ (boxTagged_runOps ops initState boxTagged_init)

/-- Witness for C4 at the state reached by a remove followed by an
(attempted) insert. -/
theorem reachable_key_live_invariant_witness :
    Reachable (runOps initState [Op.rem (Ty.base 0), Op.ins (Ty.base 0) 5]) ∧
    KeyLiveInv (runOps initState [Op.rem (Ty.base 0), Op.ins (Ty.base 0) 5]) :=
  ⟨⟨[Op.rem (Ty.base 0), Op.ins (Ty.base 0) 5], rfl⟩,
   reachable_key_live_invariant _
     ⟨[Op.rem (Ty.base 0), Op.ins (Ty.base 0) 5], rfl⟩⟩

/-- C5: on any state satisfying the spec's invariant (a key for `T` implies
a live value of `T` in `T`'s retrievable pool), `remove::<T>` never errors;
it deletes `T`'s key, clears the keyed slot's content in `T`'s shared pool,
and returns `some ()` ("removed") when a value was attached and `none`
("was absent") otherwise. -/
theorem remove_contract (s : ExtState) (T : Ty) (hwf : WellFormed s) :
    (∃ r, (ExtensionsMut.remove s T).1 = Except.ok r) ∧
    TypeMap.get (ExtensionsMut.remove s T).2.keys T = none ∧
    (TypeMap.get s.keys T = none →
      (ExtensionsMut.remove s T).1 = Except.ok none) ∧
    (∀ k, TypeMap.get s.keys T = some k →
      (ExtensionsMut.remove s T).1 = Except.ok (some ()) ∧
      ∃ p0, AnyMap.getPool s.store T = some p0 ∧
        AnyMap.getPool (ExtensionsMut.remove s T).2.store T =
          some (ExtPool.clear p0 k) ∧
        ∀ v, ExtPool.get (ExtPool.clear p0 k) k ≠ some (some v)) := by
  cases hk : TypeMap.get s.keys T with
  | none =>
      have hrem : ExtensionsMut.remove s T =
          (Except.ok none, { s with keys := (TypeMap.remove s.keys T).2 }) := by
        unfold ExtensionsMut.remove TypeMap.remove
        rw [show s.keys T = none from hk]
      refine ⟨⟨none, by rw [hrem]⟩, ?_, fun _ => by rw [hrem], ?_⟩
      · rw [hrem]
        show (if T = T then none else s.keys T) = none
        rw [if_pos rfl]
      · intro k hk2
        exact Option.noConfusion hk2
  | some k =>
      obtain ⟨p0, hp0, v0, hv0⟩ := hwf T k hk
      have hrem : ExtensionsMut.remove s T =
          (Except.ok (some ()),
           { store := AnyMap.setPoolPayload s.store T (ExtPool.clear p0 k),
             keys := (TypeMap.remove s.keys T).2 }) := by
        unfold ExtensionsMut.remove TypeMap.remove
        rw [show s.keys T = some k from hk, hp0]
      refine ⟨⟨some (), by rw [hrem]⟩, ?_, ?_, ?_⟩
      · rw [hrem]
        show (if T = T then none else s.keys T) = none
        rw [if_pos rfl]
      · intro hk2
        exact Option.noConfusion hk2
      · intro k2 hk2
        injection hk2 with hk3
        subst hk3
        refine ⟨by rw [hrem], p0, hp0, ?_, extPool_get_clear_ne p0 k⟩
        rw [hrem]
        exact getPool_setPoolPayload s.store T p0 (ExtPool.clear p0 k) hp0

/-- Witness for C5 at a well-formed state with a live value of `Ty.base 0`
attached in slot 0. -/
theorem remove_contract_witness :
    WellFormed wfState ∧
    (ExtensionsMut.remove wfState (Ty.base 0)).1 = Except.ok (some ()) := by
  have hwf : WellFormed wfState := by
    intro T k hk
    by_cases hT : T = Ty.base 0
    · subst hT
      have hk0 : k = 0 := by
        have : some 0 = some k := hk
        injection this with h2
        exact h2.symm
      subst hk0
      exact ⟨[some 7], rfl, 7, rfl⟩
    · have : (none : Option Nat) = some k := by
        have h2 : TypeMap.get wfState.keys T = some k := hk
        show (none : Option Nat) = some k
        rw [← h2]
        show none = (if T = Ty.base 0 then some 0 else none)
        rw [if_neg hT]
      exact Option.noConfusion this
  exact ⟨hwf, ((remove_contract wfState (Ty.base 0) hwf).2.2.2 0 rfl).1⟩

/-- C6: the code's `replace` is literally `remove::<T>()` followed by
`insert::<T>(value)` (the equivalence holds by construction), but the claim
that its result indicates whether a previous value existed — in particular
that replace on an absent type behaves as a successful insert and reports
"no previous value" — is refuted: on a fresh entity `replace` panics inside
the inner insert and never reports anything. -/
theorem replace_equiv_but_panics :
    (∀ (s : ExtState) (T : Ty) (v : Nat),
      ExtensionsMut.replace s T v = removeThenInsert s T v) ∧
    (ExtensionsMut.replace initState (Ty.base 0) 5).1 =
      Except.error unwrapPanicMsg :=
  ⟨fun _ _ _ => rfl, rfl⟩

/-- C7: for a type with no key in the entity's key map (never inserted on
this entity), both read-style operations `Extensions::get` and
`ExtensionsMut::get_mut` return the explicit empty result; their early
returns have no panicking branch. -/
theorem get_never_inserted_none (s : ExtState) (T : Ty)
    (h : TypeMap.get s.keys T = none) :
    Extensions.get s T = none ∧ ExtensionsMut.getMut s T = none := by
  unfold Extensions.get ExtensionsMut.getMut
  rw [h]
  exact ⟨rfl, rfl⟩

/-- Witness for C7 at a fresh entity and the type `Ty.base 1`. -/
theorem get_never_inserted_none_witness :
    TypeMap.get initState.keys (Ty.base 1) = none ∧
    (Extensions.get initState (Ty.base 1) = none ∧
     ExtensionsMut.getMut initState (Ty.base 1) = none) :=
  ⟨rfl, get_never_inserted_none initState (Ty.base 1) rfl⟩

/-- C8: the claim says two entities' first-time inserts of the same type
converge on one surviving shared pool with neither party's value lost.  The
code refutes it even in the most favorable (fully sequential) schedule: the
canonical-pool re-fetch after the write both the claim and the code describe
always comes back empty (the pool was stored double-boxed), so entity A's
insert panics, entity B's insert against the store A left behind panics the
same way, and neither value is ever retrievable. -/
theorem race_first_insert_loses_both :
    entityAInsert.1 = Except.error unwrapPanicMsg ∧
    entityBInsert.1 = Except.error unwrapPanicMsg ∧
    Extensions.get
      { store := entityBInsert.2.store, keys := entityAInsert.2.keys }
      (Ty.base 0) = none ∧
    Extensions.get entityBInsert.2 (Ty.base 0) = none :=
  ⟨rfl, rfl, rfl, rfl⟩

/-- C9: the hash of a runtime type identity is the identity's own integer
value unchanged: from any hasher state, `write_u64 id` followed by `finish`
yields exactly `id`, with no mixing. -/
theorem write_u64_finish_identity (h : TypeIdHasher) (id : Nat) :
    TypeIdHasher.finish (TypeIdHasher.write_u64 h id) = id := rfl

/-- C10: hashing a `TypeId` emits only a `write_u64` call, so the hash
computation every `AnyMap` key operation performs completes without
reaching the unconditionally panicking byte-slice `write` branch, and
yields the identity's value. -/
theorem typeId_hash_never_hits_write (id : Nat) :
    AnyMap.hashKey id = Except.ok id := rfl

end Tracing
